import Mathlib

/-!
Verification of the RotMG bot's perception-and-decision core.

The definitions below are shallow embeddings of the Python sources:
  * `src/logic/bot.py`        (`RotMGbot`: debounced retreat guard, HP reading, movement)
  * `src/logic/bot_linux.py`  (`RotMGbotLinux.run`: capture retry, combat, looting)
  * `src/vision/detection.py` (HP bar reading, dodge direction, item values)
  * `src/vision/asset_loader.py` (template matchers)
  * `src/input/keyboard.py`   (movement-key release)

Python `float` values are modelled as `ℚ`, Python `int` as `ℤ` (or `ℕ` where the
source value is a count), and fallible reads as `Option`.  External library
primitives (OpenCV colour conversion and correlation scores, OCR output) are
modelled explicitly where their arithmetic matters and as function parameters
where the repository code only forwards their results.
-/

namespace RotMG

/-! ### Basic numeric helpers -/

/-- Model of OpenCV rounding applied to the nonnegative intermediate values of
the colour conversion: round half up. -/
def rnd (q : ℚ) : ℤ := ⌊q + 1 / 2⌋

/-- One 8-bit BGR pixel, channels in OpenCV order. -/
structure BGRPix where
  b : ℕ
  g : ℕ
  r : ℕ

/-- A captured frame: `height × width` grid of BGR pixels
(`np.ndarray` of shape `(h, w, 3)`). -/
structure Frame where
  h : ℕ
  w : ℕ
  px : ℕ → ℕ → BGRPix

/-- Model of `cv2.cvtColor(..., cv2.COLOR_BGR2HSV)` on one 8-bit pixel:
`V = max(R,G,B)`, `S = 255·(V−min)/V` (0 when `V = 0`), and the hue is the
standard sector formula halved into `0..180`. -/
def bgr2hsv (p : BGRPix) : ℤ × ℤ × ℤ :=
  let b : ℤ := (p.b : ℤ)
  let g : ℤ := (p.g : ℤ)
  let r : ℤ := (p.r : ℤ)
  let v : ℤ := max r (max g b)
  let mn : ℤ := min r (min g b)
  let d : ℤ := v - mn
  let s : ℤ := if v = 0 then 0 else rnd ((255 * (d : ℚ)) / (v : ℚ))
  let hRaw : ℚ :=
    if d = 0 then 0
    else if v = r then 60 * ((g : ℚ) - (b : ℚ)) / (d : ℚ)
    else if v = g then 120 + 60 * ((b : ℚ) - (r : ℚ)) / (d : ℚ)
    else 240 + 60 * ((r : ℚ) - (g : ℚ)) / (d : ℚ)
  let hPos : ℚ := if hRaw < 0 then hRaw + 360 else hRaw
  (rnd (hPos / 2), s, v)

/-- Model of `cv2.inRange(hsv, lower, upper)` on a single pixel: every channel
lies between the corresponding bounds (inclusive). -/
def hsvInRange (lo hi : ℤ × ℤ × ℤ) (x : ℤ × ℤ × ℤ) : Bool :=
  decide (lo.1 ≤ x.1 ∧ x.1 ≤ hi.1 ∧ lo.2.1 ≤ x.2.1 ∧ x.2.1 ≤ hi.2.1 ∧
    lo.2.2 ≤ x.2.2 ∧ x.2.2 ≤ hi.2.2)

/-- Model of `cv2.countNonZero` applied to an `inRange` mask over the
sub-region of `f` with top-left `(y0, x0)` and size `rh × rw`. -/
def countRegion (f : Frame) (y0 x0 rh rw : ℕ) (pred : BGRPix → Bool) : ℕ :=
  ((List.range rh).map
    (fun i => ((List.range rw).filter (fun j => pred (f.px (y0 + i) (x0 + j)))).length)).sum

/-! ### `detection.get_hp_percent` (src/vision/detection.py lines 119-164) -/

/-- The `hp_bar` entry of `config/calibration.json` together with the
`thresholds.hp_red` value, with the source defaults
(`x1=50, y1=900, x2=250, y2=920, hp_red=150`) already substituted by the
`dict.get` calls. -/
structure HpBarCalib where
  x1 : ℤ
  y1 : ℤ
  x2 : ℤ
  y2 : ℤ
  hpRed : ℤ

/-- `max(0, min(v, dim-1))`: the per-coordinate clamp applied by
`detection.get_hp_percent` (and its siblings) before slicing. -/
def clampCoord (v : ℤ) (dim : ℕ) : ℤ := max 0 (min v ((dim : ℤ) - 1))

/-- The clamped, swapped HP-bar region of `detection.get_hp_percent`:
returns `(y0, x0, rh, rw)` describing the numpy slice
`frame[y1:y2, x1:x2]` after `x1,y1,x2,y2` were clamped into frame bounds and
swapped so that `x1 ≤ x2` and `y1 ≤ y2`. -/
def detClampedRegion (c : HpBarCalib) (f : Frame) : ℕ × ℕ × ℕ × ℕ :=
  let x1 := clampCoord c.x1 f.w
  let y1 := clampCoord c.y1 f.h
  let x2 := clampCoord c.x2 f.w
  let y2 := clampCoord c.y2 f.h
  let xs := if x1 > x2 then (x2, x1) else (x1, x2)
  let ys := if y1 > y2 then (y2, y1) else (y1, y2)
  (ys.1.toNat, xs.1.toNat, (ys.2 - ys.1).toNat, (xs.2 - xs.1).toNat)

/-- `detection.get_hp_percent(frame)`: measure the red-pixel fraction of the
calibrated HP-bar region and return `int(fraction·100)` clamped to `[0,100]`,
or `None` when the (clamped) region is empty. -/
def detGetHpPercent (c : HpBarCalib) (f : Frame) : Option ℤ :=
  let reg := detClampedRegion c f
  let rh := reg.2.2.1
  let rw := reg.2.2.2
  if rh * rw * 3 = 0 then none
  else
    let redCount := countRegion f reg.1 reg.2.1 rh rw
      (fun p => hsvInRange (0, c.hpRed, 100) (10, 255, 255) (bgr2hsv p))
    let total : ℕ := rh * rw
    if total = 0 then none
    else
      let percent : ℤ := ⌊((redCount : ℚ) / (total : ℚ)) * 100⌋
      some (max 0 (min 100 percent))

/-- The calibrated HP region has no intersection with the frame: it lies
entirely left of, right of, above, or below the pixel grid. -/
def regionFullyOutside (c : HpBarCalib) (f : Frame) : Prop :=
  (max c.x1 c.x2 < 0 ∨ (f.w : ℤ) ≤ min c.x1 c.x2) ∨
  (max c.y1 c.y2 < 0 ∨ (f.h : ℤ) ≤ min c.y1 c.y2)

instance (c : HpBarCalib) (f : Frame) : Decidable (regionFullyOutside c f) := by
  unfold regionFullyOutside
  infer_instance

/-! ### `RotMGbot.get_hp_percent` (src/logic/bot.py lines 150-253) -/

/-- The `hp_bar_region` record from `config.settings`, with the source
defaults (`x=50, y=900, width=200, height=20`) already substituted. -/
structure HpCfg where
  x : ℤ
  y : ℤ
  w : ℤ
  h : ℤ

/-- Python slice-index normalisation for a dimension of length `n`:
negative indices count from the end, and every index is clipped into
`[0, n]`. -/
def pySliceNorm (n : ℕ) (i : ℤ) : ℕ :=
  (if i < 0 then max 0 ((n : ℤ) + i) else min i (n : ℤ)).toNat

/-- The numpy slice `frame[ya:yb, xa:xb]` as `(y0, x0, rh, rw)`.
Row/column counts are the (possibly zero) normalised slice lengths. -/
def pySlice2D (f : Frame) (ya yb xa xb : ℤ) : ℕ × ℕ × ℕ × ℕ :=
  let y0 := pySliceNorm f.h ya
  let y1 := pySliceNorm f.h yb
  let x0 := pySliceNorm f.w xa
  let x1 := pySliceNorm f.w xb
  (y0, x0, y1 - y0, x1 - x0)

/-- The candidate HP regions of `RotMGbot.get_hp_percent`: the configured
region when an `hp_bar_region` config exists (kept only when its slice is
non-empty), otherwise the four hard-coded right-sidebar fallback regions. -/
def botRegions (cfg : Option HpCfg) (f : Frame) : List (ℕ × (ℕ × ℕ × ℕ × ℕ)) :=
  match cfg with
  | some c =>
      let reg := pySlice2D f c.y (c.y + c.h) c.x (c.x + c.w)
      if reg.2.2.1 * reg.2.2.2 * 3 = 0 then [] else [(0, reg)]
  | none =>
      [(0, pySlice2D f 60 90 ((f.w : ℤ) - 350) ((f.w : ℤ) - 50)),
       (1, pySlice2D f 80 110 ((f.w : ℤ) - 350) ((f.w : ℤ) - 50)),
       (2, pySlice2D f 100 130 ((f.w : ℤ) - 350) ((f.w : ℤ) - 50)),
       (3, pySlice2D f 70 100 ((f.w : ℤ) - 400) ((f.w : ℤ) - 50))]

/-- The bright-green pixel density of a region, in percent:
`countNonZero(inRange(hsv, (40,150,150), (80,255,255))) / max(1, size) · 100`. -/
def greenDensity (f : Frame) (reg : ℕ × ℕ × ℕ × ℕ) : ℚ :=
  let cnt := countRegion f reg.1 reg.2.1 reg.2.2.1 reg.2.2.2
    (fun p => hsvInRange (40, 150, 150) (80, 255, 255) (bgr2hsv p))
  ((cnt : ℚ) / ((max 1 (reg.2.2.1 * reg.2.2.2) : ℕ) : ℚ)) * 100

/-- The three-tier colour heuristic of `RotMGbot.get_hp_percent`:
density ≥ 8 ⇒ 100 %, ≥ 4 ⇒ 75 %, ≥ 2 ⇒ 25 %, else −1 ("unknown rather
than 0 %"). -/
def colorTier (d : ℚ) : ℚ :=
  if d ≥ 8 then 100 else if d ≥ 4 then 75 else if d ≥ 2 then 25 else -1

/-- The per-region loop of `RotMGbot.get_hp_percent`, folding the running
`best_hp_percent`.  `ocr` models the optional pytesseract read: for a region
index it yields the `(cur, max)` pair parsed by the `(\d+)/(\d+)` regex, or
`none` when OCR is unavailable or nothing parsed. -/
def botRegionFold (f : Frame) (ocr : ℕ → Option (ℕ × ℕ)) :
    List (ℕ × (ℕ × ℕ × ℕ × ℕ)) → ℚ → ℚ
  | [], best => best
  | (i, reg) :: rest, best =>
      if reg.2.2.1 * reg.2.2.2 * 3 = 0 then botRegionFold f ocr rest best
      else
        let d := greenDensity f reg
        let best1 :=
          match ocr i with
          | some cm =>
              if 0 < cm.2 ∧ cm.1 ≤ cm.2 then
                let hp : ℚ := ((cm.1 : ℚ) / (cm.2 : ℚ)) * 100
                if hp > best then hp else best
              else best
          | none => best
        let g := colorTier d
        let best2 := if g > best1 then g else best1
        botRegionFold f ocr rest best2

/-- `RotMGbot.get_hp_percent`: the best candidate reading across regions and
methods, `None` when every candidate stayed below 0, otherwise clamped to
`[0, 100]`. -/
def botGetHpPercent (cfg : Option HpCfg) (ocr : ℕ → Option (ℕ × ℕ)) (f : Frame) :
    Option ℚ :=
  let best := botRegionFold f ocr (botRegions cfg f) (-1)
  if best < 0 then none else some (min 100 (max 0 best))

/-! ### The retreat guard `RotMGbot.should_nexus` (src/logic/bot.py 324-339) -/

/-- One call of `RotMGbot.should_nexus(hp_percent)` acting on the
`_low_hp_consecutive_count` counter: unknown HP resets the counter and never
retreats; HP ≤ threshold increments it; HP above threshold resets it.  The
returned flag is `count ≥ 15` after the update. -/
def shouldNexusStep (threshold : ℚ) (hp : Option ℚ) (count : ℕ) : Bool × ℕ :=
  match hp with
  | none => (false, 0)
  | some v =>
      if v ≤ threshold then (decide (count + 1 ≥ 15), count + 1)
      else (false, 0)

/-- Iterate `should_nexus` over a sequence of HP readings, collecting the
per-iteration retreat flags and the final counter. -/
def runNexusMachine (threshold : ℚ) : List (Option ℚ) → ℕ → List Bool × ℕ
  | [], count => ([], count)
  | r :: rs, count =>
      let s := shouldNexusStep threshold r count
      let t := runNexusMachine threshold rs s.2
      (s.1 :: t.1, t.2)

/-- The Linux bot's (undebounced) nexus condition
`player_hp is not None and player_hp <= self.auto_nexus_percent`
(src/logic/bot_linux.py line 279). -/
def linuxNexusTrigger (threshold : ℚ) (hp : Option ℚ) : Bool :=
  match hp with
  | none => false
  | some v => decide (v ≤ threshold)

/-! ### `detection.get_dodge_direction` (src/vision/detection.py 281-293) -/

/-- A cardinal movement direction. -/
inductive Dir where
  | up
  | down
  | left
  | right
deriving DecidableEq

/-- `detection.get_dodge_direction(bullet)`: `player` is the calibrated
player position (default `(960, 540)`), `bullet` the detected bullet centre.
When `|bx − px| > |by − py|` the function returns `up`/`down` according to
the bullet's vertical side, otherwise `left`/`right` according to its
horizontal side. -/
def getDodgeDirection (player bullet : ℤ × ℤ) : Dir :=
  if |bullet.1 - player.1| > |bullet.2 - player.2| then
    (if bullet.2 < player.2 then Dir.up else Dir.down)
  else
    (if bullet.1 < player.1 then Dir.left else Dir.right)

/-! ### Enemy targeting (src/logic/bot_linux.py 290-299, src/logic/bot.py 449-453) -/

/-- A detected enemy as produced by the detectors: centre position, distance
from the player, and template name. -/
structure Enemy where
  center : ℤ × ℤ
  distance : ℚ
  name : String
deriving DecidableEq

/-- A combat action of the Linux decision step. -/
inductive CombatAct where
  | aimAt (pos : ℤ × ℤ)
  | clickLeft
  | releaseMovementKeys
deriving DecidableEq

/-- The target selection of `RotMGbotLinux.run`: `target = enemies[0]`. -/
def linuxSelectTarget (enemies : List Enemy) : Option Enemy := enemies.head?

/-- The attack portion of the Linux decision step: with enemies present, aim
the mouse at `enemies[0]` and click; with none, release the movement keys. -/
def linuxAttackActions (enemies : List Enemy) : List CombatAct :=
  match enemies with
  | [] => [CombatAct.releaseMovementKeys]
  | t :: _ => [CombatAct.aimAt t.center, CombatAct.clickLeft]

/-- `min(enemies, key=lambda e: e['distance'])` from `RotMGbot.run`
(kiting branch): fold that replaces the running minimum only on a strictly
smaller distance, so the first minimum is kept on ties. -/
def pyMinByDistance (e : Enemy) (es : List Enemy) : Enemy :=
  es.foldl (fun b x => if x.distance < b.distance then x else b) e

/-! ### Looting (src/logic/bot_linux.py 331-353, src/vision/detection.py 252-262) -/

/-- A detected loot item (name and screen centre). -/
structure LootItem where
  name : String
  center : ℤ × ℤ
deriving DecidableEq

/-- A looting action of the Linux decision step. -/
inductive LAction where
  | drop (slot : ℕ)
  | lootAt (name : String) (center : ℤ × ℤ)
deriving DecidableEq

/-- The hardcoded fallback `item_values` table of `detection.py` (used when
`assets/metadata/item_values.json` is absent). -/
def itemValuesFallback : List (String × ℤ) :=
  [("Potion of Life", 5), ("Potion of Defense", 4), ("Tincture of Mana", 2),
   ("Wooden Sword", 0), ("Ancient Sword", 3)]

/-- `detection.get_item_value(item_name)`: `item_values.get(item_name, -1)`. -/
def getItemValue (table : List (String × ℤ)) (name : String) : ℤ :=
  ((table.find? (fun p => p.1 == name)).map Prod.snd).getD (-1)

/-- `detection.find_worst_item_slot(frame)`: always slot 8. -/
def findWorstItemSlot : Option ℕ := some 8

/-- The `for item in loot_items[:2]` scan of `RotMGbotLinux.run`: emit a loot
click for the first item passing `value and value >= 0` (Python truthiness:
`value ≠ 0` and `value ≥ 0`), then `break`. -/
def scanLoot (table : List (String × ℤ)) : List LootItem → List LAction
  | [] => []
  | it :: rest =>
      let v := getItemValue table it.name
      if v ≠ 0 ∧ v ≥ 0 then [LAction.lootAt it.name it.center]
      else scanLoot table rest

/-- The looting block of `RotMGbotLinux.run`: nothing without loot; with loot
present, drop the worst slot first when the inventory is full, then scan only
the first two loot items. -/
def lootDecision (inventoryFull : Bool) (loot : List LootItem)
    (table : List (String × ℤ)) : List LAction :=
  if loot.isEmpty then []
  else
    let dropActs :=
      if inventoryFull then
        match findWorstItemSlot with
        | some s => [LAction.drop s]
        | none => []
      else []
    dropActs ++ scanLoot table (loot.take 2)

/-! ### Template matching (src/vision/asset_loader.py 141-206) -/

/-- A grayscale image (template or screen) as consumed by the matcher:
the colour-to-grayscale conversion of the source is shape-preserving, so
only dimensions and the (grayscale) pixel grid are modelled. -/
structure Mat where
  h : ℕ
  w : ℕ
  px : ℕ → ℕ → ℕ

/-- Model of `cv2.matchTemplate(screen, template, TM_CCOEFF_NORMED)`:
an abstract correlation score at each location `(x, y)`. -/
def Corr : Type := Mat → Mat → ℕ → ℕ → ℚ

/-- The matcher returned by `AssetLoader.create_template_matcher`: an
oversized template (taller or wider than the screen) yields no matches;
otherwise every location of the `(H−h+1) × (W−w+1)` result grid whose
correlation score reaches the threshold yields a box
`(x, y, template_w, template_h)`, enumerated row-major as by
`zip(*np.where(result >= threshold)[::-1])`. -/
def matchTemplateFn (corr : Corr) (threshold : ℚ) (tpl screen : Mat) :
    List (ℕ × ℕ × ℕ × ℕ) :=
  if tpl.h > screen.h ∨ tpl.w > screen.w then []
  else
    (List.range (screen.h - tpl.h + 1)).flatMap (fun y =>
      (List.range (screen.w - tpl.w + 1)).filterMap (fun x =>
        if threshold ≤ corr screen tpl x y then some (x, y, tpl.w, tpl.h)
        else none))

/-- The matcher returned by `AssetLoader.create_multi_template_matcher`
(`match_multiple_templates`): run each named template's matcher against the
screen and keep only the names whose match list is non-empty, in template
insertion order. -/
def multiTemplateMatch (corr : Corr) (threshold : ℚ)
    (templates : List (String × Mat)) (screen : Mat) :
    List (String × List (ℕ × ℕ × ℕ × ℕ)) :=
  templates.filterMap (fun nt =>
    let ms := matchTemplateFn corr threshold nt.2 screen
    if ms.isEmpty then none else some (nt.1, ms))

/-- A small all-black 3×3 screen used to exercise the matchers. -/
def demoScreen : Mat := ⟨3, 3, fun _ _ => 0⟩

/-- A 20×20 template, larger than `demoScreen` in both dimensions. -/
def demoBig : Mat := ⟨20, 20, fun _ _ => 0⟩

/-- A 2×2 template that fits inside `demoScreen`. -/
def demoSmall : Mat := ⟨2, 2, fun _ _ => 0⟩

/-- A correlation model that scores 1 everywhere. -/
def demoCorr : Corr := fun _ _ _ _ => 1

/-! ### Capture-failure handling (src/logic/bot_linux.py 220-253,
src/logic/bot.py 425-429) -/

/-- What one iteration of a control loop does after the capture attempt. -/
inductive CapStep where
  | proceed
  | sleepRetry
  | stopLoop
deriving DecidableEq

/-- The capture block of `RotMGbotLinux.run`: on success reset
`consecutive_failures` and proceed; on failure increment it, stop the loop
once it reaches `max_failures`, otherwise sleep 0.1 s and retry. -/
def linuxCaptureHandle (maxFailures failures : ℕ) (ok : Bool) : ℕ × CapStep :=
  if ok then (0, CapStep.proceed)
  else
    let f := failures + 1
    if f ≥ maxFailures then (f, CapStep.stopLoop) else (f, CapStep.sleepRetry)

/-- Run the Linux capture handling over a sequence of capture results;
`true` means the loop stopped because of consecutive failures. -/
def linuxCaptureRun (maxFailures : ℕ) : ℕ → List Bool → Bool
  | _, [] => false
  | f, ok :: rest =>
      let s := linuxCaptureHandle maxFailures f ok
      match s.2 with
      | CapStep.stopLoop => true
      | _ => linuxCaptureRun maxFailures s.1 rest

/-- The capture block of `RotMGbot.run` (Windows): a `None` frame only emits
a status message, sleeps 0.5 s and retries; there is no failure counter and
no stop. -/
def botPyCaptureHandle (ok : Bool) : CapStep :=
  if ok then CapStep.proceed else CapStep.sleepRetry

/-- Run the Windows capture handling over a sequence of capture results;
`true` would mean the loop stopped because of capture failures. -/
def botPyCaptureRun : List Bool → Bool
  | [] => false
  | ok :: rest =>
      match botPyCaptureHandle ok with
      | CapStep.stopLoop => true
      | _ => botPyCaptureRun rest

/-! ### Movement-key release (src/input/keyboard.py 83-90,
src/logic/bot.py 386-389) -/

/-- The pressed/released state of every key, by key name. -/
def KeyState : Type := String → Bool

/-- `controller.release(key)` / `keyboard.release_key(key)`: releasing is
unconditional and tolerates keys that were never pressed. -/
def releaseKey (k : String) (s : KeyState) : KeyState :=
  fun k' => if k' = k then false else s k'

/-- `keyboard.release_movement_keys(controller, keybinds)`: release the bound
key of every action whose name starts with `move_`. -/
def releaseMovementKeys (keybinds : List (String × String)) (s : KeyState) :
    KeyState :=
  keybinds.foldl
    (fun st p => if p.1.startsWith ("move_") then releaseKey p.2 st else st) s

/-- `str.index(sub)` on the underlying character lists: position of the first
occurrence of `sub`, `none` when absent (Python raises `ValueError` then). -/
def pyStrIndexList : List Char → List Char → Option ℕ
  | [], sub => if sub = [] then some 0 else none
  | c :: rest, sub =>
      if (c :: rest).take sub.length = sub then some 0
      else (pyStrIndexList rest sub).map (· + 1)

/-- The default-key expression of `RotMGbot.stop_movement`:
`'wasd'[key.index('move_')]`.  Since every movement action name starts with
`move_`, the index is always 0 and the default is always `w`. -/
def wasdDefault (action : String) : String :=
  match pyStrIndexList action.toList ("move_").toList with
  | some i => String.mk ["wasd".toList.getD i '?']
  | none => ""

/-- `dict.get(key, default)` on an association list. -/
def dictGet (kb : List (String × String)) (key dflt : String) : String :=
  ((kb.find? (fun p => p.1 == key)).map Prod.snd).getD dflt

/-- `RotMGbot.stop_movement`: release, for each of the four movement actions,
the bound key or the `'wasd'[key.index('move_')]` default. -/
def stopMovementBot (kb : List (String × String)) (s : KeyState) : KeyState :=
  [("move_up" : String), "move_down", "move_left", "move_right"].foldl
    (fun st a => releaseKey (dictGet kb a (wasdDefault a)) st) s

/-! ### Helper lemmas -/

theorem runNexusMachine_append (t : ℚ) (l₁ l₂ : List (Option ℚ)) : ∀ c : ℕ,
    runNexusMachine t (l₁ ++ l₂) c =
      ((runNexusMachine t l₁ c).1 ++
        (runNexusMachine t l₂ (runNexusMachine t l₁ c).2).1,
       (runNexusMachine t l₂ (runNexusMachine t l₁ c).2).2) := by
  induction l₁ with
  | nil => intro c; simp [runNexusMachine]
  | cons r rs ih => intro c; simp [runNexusMachine, ih]

theorem runNexusMachine_low (t hp : ℚ) (hle : hp ≤ t) (k : ℕ) : ∀ c : ℕ,
    runNexusMachine t (List.replicate k (some hp)) c =
      ((List.range k).map (fun j => decide (c + j + 1 ≥ 15)), c + k) := by
  induction k with
  | zero => intro c; simp [runNexusMachine]
  | succ k ih =>
      intro c
      have hfun : (fun j : ℕ => decide (c + 1 + j + 1 ≥ 15)) =
          (fun j : ℕ => decide (c + (j + 1) + 1 ≥ 15)) := by
        funext j
        have hj : c + 1 + j + 1 = c + (j + 1) + 1 := by omega
        rw [hj]
      simp only [List.replicate_succ, runNexusMachine, shouldNexusStep, if_pos hle,
        ih (c + 1), List.range_succ_eq_map, List.map_cons, List.map_map,
        Function.comp_def, hfun, Prod.mk.injEq, Nat.add_zero, Nat.succ_eq_add_one]
      exact ⟨trivial, by omega⟩

theorem colorTier_cases (d : ℚ) : colorTier d = -1 ∨ 25 ≤ colorTier d := by
  unfold colorTier
  split_ifs <;> norm_num

theorem botRegionFold_noOCR (f : Frame) (l : List (ℕ × (ℕ × ℕ × ℕ × ℕ))) :
    ∀ best : ℚ, best = -1 ∨ 25 ≤ best →
      (botRegionFold f (fun _ => none) l best = -1 ∨
       25 ≤ botRegionFold f (fun _ => none) l best) := by
  induction l with
  | nil =>
      intro best h
      simpa [botRegionFold] using h
  | cons hd tl ih =>
      intro best h
      obtain ⟨i, reg⟩ := hd
      by_cases hz : reg.2.2.1 * reg.2.2.2 * 3 = 0
      · simpa [botRegionFold, hz] using ih best h
      · have hstep : botRegionFold f (fun _ => none) ((i, reg) :: tl) best =
            botRegionFold f (fun _ => none) tl
              (if colorTier (greenDensity f reg) > best then
                colorTier (greenDensity f reg) else best) := by
          simp [botRegionFold, hz]
        rw [hstep]
        apply ih
        by_cases hgt : colorTier (greenDensity f reg) > best
        · rcases colorTier_cases (greenDensity f reg) with hg | hg
          · rcases h with h | h
            · rw [h] at hgt
              rw [hg] at hgt
              exact absurd hgt (lt_irrefl _)
            · rw [hg] at hgt
              exact absurd (lt_of_le_of_lt h hgt) (by norm_num)
          · right
            rw [if_pos hgt]
            exact hg
        · rw [if_neg hgt]
          exact h

/-! ### Claim theorems -/

/-- C1: For the retreat-guard state machine (`RotMGbot.should_nexus`),
14 consecutive readings at or below the threshold followed by one unknown
reading emit no retreat and reset the counter to 0; 15 consecutive
qualifying readings emit the retreat exactly once; and any single iteration
whose reading is unknown or above threshold emits no retreat (likewise the
Linux trigger fires on no such iteration). -/
theorem retreat_guard_debounce (t hp : ℚ) (hle : hp ≤ t) :
    (runNexusMachine t (List.replicate 14 (some hp) ++ [none]) 0).1.count true = 0 ∧
    (runNexusMachine t (List.replicate 14 (some hp) ++ [none]) 0).2 = 0 ∧
    (runNexusMachine t (List.replicate 15 (some hp)) 0).1.count true = 1 ∧
    (∀ n : ℕ, (shouldNexusStep t none n).1 = false) ∧
    (∀ (n : ℕ) (v : ℚ), t < v → (shouldNexusStep t (some v) n).1 = false) ∧
    (∀ v : ℚ, t < v → linuxNexusTrigger t (some v) = false) ∧
    linuxNexusTrigger t none = false := by
  have hnone : ∀ c : ℕ, runNexusMachine t [none] c = ([false], 0) := by
    intro c
    simp [runNexusMachine, shouldNexusStep]
  refine ⟨?_, ?_, ?_, ?_, ?_, ?_, ?_⟩
  · rw [runNexusMachine_append, runNexusMachine_low t hp hle, hnone]
    decide
  · rw [runNexusMachine_append, runNexusMachine_low t hp hle, hnone]
  · rw [runNexusMachine_low t hp hle]
    decide
  · intro n
    simp [shouldNexusStep]
  · intro n v hv
    simp [shouldNexusStep, not_le.mpr hv]
  · intro v hv
    simp [linuxNexusTrigger, not_le.mpr hv]
  · simp [linuxNexusTrigger]

/-- Witness for C1 at threshold 30 and health reading 10. -/
theorem retreat_guard_debounce_witness :
    (10 : ℚ) ≤ 30 ∧
    (runNexusMachine 30 (List.replicate 14 (some 10) ++ [none]) 0).1.count true = 0 ∧
    (runNexusMachine 30 (List.replicate 14 (some 10) ++ [none]) 0).2 = 0 ∧
    (runNexusMachine 30 (List.replicate 15 (some 10)) 0).1.count true = 1 ∧
    (shouldNexusStep 30 none 7).1 = false ∧
    (shouldNexusStep 30 (some 50) 7).1 = false ∧
    linuxNexusTrigger 30 (some 50) = false ∧
    linuxNexusTrigger 30 none = false := by
  have h : (10 : ℚ) ≤ 30 := by norm_num
  have H := retreat_guard_debounce 30 10 h
  exact ⟨h, H.1, H.2.1, H.2.2.1, H.2.2.2.1 7, H.2.2.2.2.1 7 50 (by norm_num),
    H.2.2.2.2.2.1 50 (by norm_num), H.2.2.2.2.2.2⟩

/-- C2: Both health estimators return the unknown sentinel `none` or a value
in `[0, 100]`; with OCR unavailable, a numeric reading of the Windows
estimator is at least 25 (the lowest colour tier), so an unknown reading is
never represented as 0; and an unknown reading never counts toward the
retreat condition (the debounce counter resets and the Linux trigger stays
off). -/
theorem health_estimate_range :
    (∀ (cfg : Option HpCfg) (ocr : ℕ → Option (ℕ × ℕ)) (f : Frame),
       botGetHpPercent cfg ocr f = none ∨
       ∃ p, botGetHpPercent cfg ocr f = some p ∧ 0 ≤ p ∧ p ≤ 100) ∧
    (∀ (c : HpBarCalib) (f : Frame),
       detGetHpPercent c f = none ∨
       ∃ p, detGetHpPercent c f = some p ∧ 0 ≤ p ∧ p ≤ 100) ∧
    (∀ (cfg : Option HpCfg) (f : Frame),
       botGetHpPercent cfg (fun _ => none) f = none ∨
       ∃ p, botGetHpPercent cfg (fun _ => none) f = some p ∧ 25 ≤ p ∧ p ≤ 100) ∧
    (∀ (t : ℚ) (n : ℕ), shouldNexusStep t none n = (false, 0)) ∧
    (∀ t : ℚ, linuxNexusTrigger t none = false) := by
  refine ⟨?_, ?_, ?_, ?_, ?_⟩
  · intro cfg ocr f
    simp only [botGetHpPercent]
    by_cases h : botRegionFold f ocr (botRegions cfg f) (-1) < 0
    · left
      rw [if_pos h]
    · right
      refine ⟨min 100 (max 0 (botRegionFold f ocr (botRegions cfg f) (-1))),
        if_neg h, ?_, ?_⟩
      · exact le_min (by norm_num) (le_max_left 0 _)
      · exact min_le_left 100 _
  · intro c f
    simp only [detGetHpPercent]
    split_ifs with h1 h2
    · left
      rfl
    · left
      rfl
    · right
      refine ⟨_, rfl, le_max_left 0 _, ?_⟩
      exact max_le (by norm_num) (min_le_left 100 _)
  · intro cfg f
    have hbase : (-1 : ℚ) = -1 ∨ (25 : ℚ) ≤ -1 := Or.inl rfl
    have H := botRegionFold_noOCR f (botRegions cfg f) (-1) hbase
    simp only [botGetHpPercent]
    rcases H with H | H
    · left
      rw [if_pos]
      rw [H]
      norm_num
    · right
      have hnotlt : ¬ botRegionFold f (fun _ => none) (botRegions cfg f) (-1) < 0 :=
        not_lt.mpr (le_trans (by norm_num) H)
      refine ⟨min 100 (max 0 (botRegionFold f (fun _ => none) (botRegions cfg f) (-1))),
        if_neg hnotlt, ?_, ?_⟩
      · have h1 : (25 : ℚ) ≤ max 0 (botRegionFold f (fun _ => none) (botRegions cfg f) (-1)) :=
          le_trans H (le_max_right 0 _)
        exact le_min (by norm_num) h1
      · exact min_le_left 100 _
  · intro t n
    simp [shouldNexusStep]
  · intro t
    simp [linuxNexusTrigger]

/-- C3 counterexample: with the bullet at (860, 540) and the player at
(960, 540) the horizontal separation dominates, yet the code dodges `down`,
not `right` along the x-axis as the claim states. -/
theorem dodge_direction_counterexample :
    getDodgeDirection (960, 540) (860, 540) = Dir.down ∧
    getDodgeDirection (960, 540) (860, 540) ≠ Dir.right := by
  decide

/-- C3 amended: whenever `|bx − px| > |by − py|`, the dodge direction is
along the y-axis — `up` when the bullet is above the player, `down`
otherwise (perpendicular to the dominant axis, not along it). -/
theorem dodge_direction_amended (player bullet : ℤ × ℤ)
    (hdom : |bullet.1 - player.1| > |bullet.2 - player.2|) :
    getDodgeDirection player bullet =
      (if bullet.2 < player.2 then Dir.up else Dir.down) := by
  unfold getDodgeDirection
  rw [if_pos hdom]

/-- Witness for the amended C3 at bullet (860, 540), player (960, 540). -/
theorem dodge_direction_amended_witness :
    |(860 : ℤ) - 960| > |(540 : ℤ) - 540| ∧
    getDodgeDirection (960, 540) (860, 540) =
      (if (540 : ℤ) < 540 then Dir.up else Dir.down) := by
  have h : |(860 : ℤ) - 960| > |(540 : ℤ) - 540| := by decide
  exact ⟨h, dodge_direction_amended (960, 540) (860, 540) h⟩

theorem argAux_some_step (e x : Enemy) :
    List.argAux (fun b c => Enemy.distance b < Enemy.distance c) (some e) x =
      some (if x.distance < e.distance then x else e) := by
  have h : List.argAux (fun b c => Enemy.distance b < Enemy.distance c) (some e) x =
      if x.distance < e.distance then some x else some e := rfl
  rw [h, apply_ite some]

theorem argmin_foldl_some (es : List Enemy) : ∀ e : Enemy,
    List.foldl (List.argAux fun b c => Enemy.distance b < Enemy.distance c)
        (some e) es = some (pyMinByDistance e es) := by
  induction es with
  | nil => intro e; rfl
  | cons x xs ih =>
      intro e
      rw [List.foldl_cons, argAux_some_step, ih]
      rfl

theorem argmin_cons_eq_pyMin (e : Enemy) (es : List Enemy) :
    List.argmin Enemy.distance (e :: es) = some (pyMinByDistance e es) := by
  show List.foldl _ none (e :: es) = _
  rw [List.foldl_cons]
  exact argmin_foldl_some es e

/-- C4 counterexample: with a far enemy detected first and a near enemy
second, the Linux decision step targets (and the attack aims at) the far
first-detected enemy, not the minimal-distance enemy the claim names. -/
theorem attack_target_counterexample :
    linuxSelectTarget [⟨(100, 100), 480, "far"⟩, ⟨(960, 560), 20, "near"⟩] =
      some ⟨(100, 100), 480, "far"⟩ ∧
    linuxAttackActions [⟨(100, 100), 480, "far"⟩, ⟨(960, 560), 20, "near"⟩] =
      [CombatAct.aimAt (100, 100), CombatAct.clickLeft] ∧
    List.argmin Enemy.distance
        [⟨(100, 100), 480, "far"⟩, ⟨(960, 560), 20, "near"⟩] =
      some ⟨(960, 560), 20, "near"⟩ ∧
    (⟨(100, 100), 480, "far"⟩ : Enemy) ≠ ⟨(960, 560), 20, "near"⟩ := by
  refine ⟨rfl, rfl, ?_, by decide⟩
  rw [argmin_cons_eq_pyMin]
  decide

/-- C4 amended: the Linux decision step targets the first-detected enemy and
emits the attack (aim + click) on it; the minimal-distance selection with
first-detected tie-breaking is what the Windows bot's kiting branch computes
as `closest_enemy` (`min(enemies, key=distance)`). -/
theorem attack_target_amended (e : Enemy) (es : List Enemy) :
    linuxSelectTarget (e :: es) = some e ∧
    linuxAttackActions (e :: es) =
      [CombatAct.aimAt e.center, CombatAct.clickLeft] ∧
    pyMinByDistance e es ∈ e :: es ∧
    (∀ a ∈ e :: es, (pyMinByDistance e es).distance ≤ a.distance) ∧
    (∀ a ∈ e :: es, a.distance ≤ (pyMinByDistance e es).distance →
       (e :: es).indexOf (pyMinByDistance e es) ≤ (e :: es).indexOf a) := by
  have H := List.argmin_eq_some_iff.mp (argmin_cons_eq_pyMin e es)
  exact ⟨rfl, rfl, H.1, H.2.1, H.2.2⟩

/-- Witness for the amended C4 on two equidistant enemies: the Linux step
targets the first-detected one, and the kiting minimum also resolves the tie
to the first-detected one. -/
theorem attack_target_amended_witness :
    linuxSelectTarget [⟨(200, 300), 50, "e0"⟩, ⟨(400, 500), 50, "e1"⟩] =
      some ⟨(200, 300), 50, "e0"⟩ ∧
    linuxAttackActions [⟨(200, 300), 50, "e0"⟩, ⟨(400, 500), 50, "e1"⟩] =
      [CombatAct.aimAt (200, 300), CombatAct.clickLeft] ∧
    pyMinByDistance ⟨(200, 300), 50, "e0"⟩ [⟨(400, 500), 50, "e1"⟩] =
      ⟨(200, 300), 50, "e0"⟩ ∧
    (pyMinByDistance ⟨(200, 300), 50, "e0"⟩ [⟨(400, 500), 50, "e1"⟩]).distance ≤
      (⟨(400, 500), 50, "e1"⟩ : Enemy).distance ∧
    ([⟨(200, 300), 50, "e0"⟩, ⟨(400, 500), 50, "e1"⟩] : List Enemy).indexOf
        (pyMinByDistance ⟨(200, 300), 50, "e0"⟩ [⟨(400, 500), 50, "e1"⟩]) ≤
      ([⟨(200, 300), 50, "e0"⟩, ⟨(400, 500), 50, "e1"⟩] : List Enemy).indexOf
        ⟨(400, 500), 50, "e1"⟩ := by
  have H := attack_target_amended ⟨(200, 300), 50, "e0"⟩ [⟨(400, 500), 50, "e1"⟩]
  have hmem : (⟨(400, 500), 50, "e1"⟩ : Enemy) ∈
      ([⟨(200, 300), 50, "e0"⟩, ⟨(400, 500), 50, "e1"⟩] : List Enemy) :=
    List.mem_cons_of_mem _ (List.mem_cons_self _ _)
  refine ⟨H.1, H.2.1, by decide, H.2.2.2.1 _ hmem, ?_⟩
  exact H.2.2.2.2 _ hmem (by decide)

theorem scanLoot_eq_find (table : List (String × ℤ)) (l : List LootItem) :
    scanLoot table l =
      match l.find? (fun it => decide (getItemValue table it.name > 0)) with
      | some it => [LAction.lootAt it.name it.center]
      | none => [] := by
  induction l with
  | nil => rfl
  | cons it rest ih =>
      by_cases h : getItemValue table it.name ≠ 0 ∧ getItemValue table it.name ≥ 0
      · have hpos : getItemValue table it.name > 0 :=
          lt_of_le_of_ne h.2 (Ne.symm h.1)
        rw [scanLoot, if_pos h,
          List.find?_cons_of_pos _ (by simpa using hpos)]
      · have hneg : ¬ getItemValue table it.name > 0 := by
          intro hc
          exact h ⟨by omega, le_of_lt hc⟩
        rw [scanLoot, if_neg h,
          List.find?_cons_of_neg _ (by simpa using hneg), ih]

/-- C5 counterexample: with a full inventory and a single detected
"Wooden Sword" — catalog value 0, hence value ≥ 0 — the decision emits only
the drop action and no loot action: the `if value and value >= 0` test
treats the 0-valued item as falsy and skips it, contradicting the claim
that the first item with value ≥ 0 is looted. -/
theorem loot_decision_counterexample :
    getItemValue itemValuesFallback ("Wooden Sword") = 0 ∧
    (0 : ℤ) ≥ 0 ∧
    lootDecision true [⟨"Wooden Sword", (500, 500)⟩] itemValuesFallback =
      [LAction.drop 8] := by
  refine ⟨by decide, by decide, ?_⟩
  decide

/-- C5 amended: with a full inventory and loot present, the decision first
emits a drop for the fixed worst slot 8, then scans only the first TWO loot
items in detection order and emits a loot action for the first whose catalog
value is strictly positive (value-0 items are skipped by the truthiness
test); items absent from the value table get value −1 and are skipped. -/
theorem loot_decision_amended (loot : List LootItem) (table : List (String × ℤ))
    (hne : loot ≠ []) :
    lootDecision true loot table =
      LAction.drop 8 ::
        (match (loot.take 2).find?
            (fun it => decide (getItemValue table it.name > 0)) with
         | some it => [LAction.lootAt it.name it.center]
         | none => []) ∧
    (∀ name, (∀ p ∈ table, p.1 ≠ name) → getItemValue table name = -1) := by
  constructor
  · have hemp : loot.isEmpty = false := by
      cases loot with
      | nil => exact absurd rfl hne
      | cons a l => rfl
    rw [lootDecision, hemp]
    simp only [Bool.false_eq_true, if_false, findWorstItemSlot]
    rw [scanLoot_eq_find]
    rfl
  · intro name hnot
    unfold getItemValue
    have hfind : table.find? (fun p => p.1 == name) = none := by
      rw [List.find?_eq_none]
      intro p hp
      simpa using hnot p hp
    rw [hfind]
    rfl

/-- Witness for the amended C5: one "Wooden Sword" on the ground, full
inventory — only the drop is emitted — and an item missing from the table
values to −1. -/
theorem loot_decision_amended_witness :
    ([⟨"Wooden Sword", (500, 500)⟩] : List LootItem) ≠ [] ∧
    lootDecision true [⟨"Wooden Sword", (500, 500)⟩] itemValuesFallback =
      [LAction.drop 8] ∧
    getItemValue itemValuesFallback ("Mystery Orb") = -1 := by
  have hne : ([⟨"Wooden Sword", (500, 500)⟩] : List LootItem) ≠ [] := by
    simp
  have H := loot_decision_amended [⟨"Wooden Sword", (500, 500)⟩]
    itemValuesFallback hne
  refine ⟨hne, ?_, H.2 ("Mystery Orb") (by decide)⟩
  rw [H.1]
  decide

theorem keys_nodup_eq {l : List (String × Mat)}
    (h : (l.map Prod.fst).Nodup) {n : String} {t t' : Mat}
    (h1 : (n, t) ∈ l) (h2 : (n, t') ∈ l) : t = t' := by
  induction l with
  | nil => cases h1
  | cons hd tl ih =>
      rw [List.map_cons, List.nodup_cons] at h
      rcases List.mem_cons.mp h1 with e1 | m1 <;>
        rcases List.mem_cons.mp h2 with e2 | m2
      · have he : ((n, t) : String × Mat) = (n, t') := e1.trans e2.symm
        exact (Prod.ext_iff.mp he).2
      · exfalso
        apply h.1
        have hfst : n ∈ tl.map Prod.fst := by
          simpa using List.mem_map_of_mem Prod.fst m2
        have hhd : hd.1 = n := by
          rw [← e1]
        rw [hhd]
        exact hfst
      · exfalso
        apply h.1
        have hfst : n ∈ tl.map Prod.fst := by
          simpa using List.mem_map_of_mem Prod.fst m1
        have hhd : hd.1 = n := by
          rw [← e2]
        rw [hhd]
        exact hfst
      · exact ih h.2 m1 m2

/-- C6: a template taller or wider than the screen produces an empty match
list (the matcher skips it instead of failing), and every other template of
the same batch whose match list is non-empty still appears in the
multi-template result with exactly its own matches. -/
theorem oversized_template_skipped (corr : Corr) (thr : ℚ)
    (ts : List (String × Mat)) (screen : Mat) (n : String) (t : Mat)
    (hmem : (n, t) ∈ ts) (hover : t.h > screen.h ∨ t.w > screen.w) :
    matchTemplateFn corr thr t screen = [] ∧
    ∀ n' t', (n', t') ∈ ts → matchTemplateFn corr thr t' screen ≠ [] →
      (n', matchTemplateFn corr thr t' screen) ∈
        multiTemplateMatch corr thr ts screen := by
  constructor
  · unfold matchTemplateFn
    rw [if_pos hover]
  · intro n' t' hmem' hne
    apply List.mem_filterMap.mpr
    refine ⟨(n', t'), hmem', ?_⟩
    have hemp : (matchTemplateFn corr thr t' screen).isEmpty = false := by
      cases hms : matchTemplateFn corr thr t' screen with
      | nil => exact absurd hms hne
      | cons a l => rfl
    simp only [hemp]
    rfl

/-- Witness for C6: a 20×20 template against a 3×3 screen yields no matches,
while the 2×2 template of the same batch keeps its matches. -/
theorem oversized_template_skipped_witness :
    (("big", demoBig) ∈ [(("big" : String), demoBig), ("ok", demoSmall)]) ∧
    (demoBig.h > demoScreen.h ∨ demoBig.w > demoScreen.w) ∧
    matchTemplateFn demoCorr 1 demoBig demoScreen = [] ∧
    (("ok", matchTemplateFn demoCorr 1 demoSmall demoScreen) ∈
      multiTemplateMatch demoCorr 1
        [(("big" : String), demoBig), ("ok", demoSmall)] demoScreen) := by
  have hmem : (("big", demoBig)) ∈ [(("big" : String), demoBig), ("ok", demoSmall)] :=
    List.mem_cons_self _ _
  have hover : demoBig.h > demoScreen.h ∨ demoBig.w > demoScreen.w := by
    left
    norm_num [demoBig, demoScreen]
  have H := oversized_template_skipped demoCorr 1
    [(("big" : String), demoBig), ("ok", demoSmall)] demoScreen ("big") demoBig
    hmem hover
  refine ⟨hmem, hover, H.1, ?_⟩
  exact H.2 ("ok") demoSmall (List.mem_cons_of_mem _ (List.mem_cons_self _ _))
    (by decide)

/-- C10: every entry of the multi-template result maps a template name to a
non-empty list of boxes that is exactly that template's own match list, and
a template whose match list is empty (an oversized one included) contributes
no key at all. -/
theorem multi_match_only_nonempty (corr : Corr) (thr : ℚ)
    (ts : List (String × Mat)) (screen : Mat)
    (hnd : (ts.map Prod.fst).Nodup) :
    (∀ p ∈ multiTemplateMatch corr thr ts screen,
       p.2 ≠ [] ∧ ∃ t, (p.1, t) ∈ ts ∧ matchTemplateFn corr thr t screen = p.2) ∧
    (∀ n t, (n, t) ∈ ts → matchTemplateFn corr thr t screen = [] →
       ∀ ms, (n, ms) ∉ multiTemplateMatch corr thr ts screen) := by
  constructor
  · intro p hp
    obtain ⟨nt, hmem, hf⟩ := List.mem_filterMap.mp hp
    by_cases hemp : (matchTemplateFn corr thr nt.2 screen).isEmpty
    · rw [if_pos hemp] at hf
      cases hf
    · rw [if_neg hemp] at hf
      obtain rfl := Option.some.inj hf
      refine ⟨?_, nt.2, hmem, rfl⟩
      intro hc
      have hc' : matchTemplateFn corr thr nt.2 screen = [] := hc
      rw [hc'] at hemp
      exact hemp rfl
  · intro n t hmem hempty ms hin
    obtain ⟨nt, hmem', hf⟩ := List.mem_filterMap.mp hin
    by_cases hemp : (matchTemplateFn corr thr nt.2 screen).isEmpty
    · rw [if_pos hemp] at hf
      cases hf
    · rw [if_neg hemp] at hf
      have hpair := Option.some.inj hf
      have hn : nt.1 = n := congrArg Prod.fst hpair
      have hmem'' : ((n, nt.2) : String × Mat) ∈ ts := by
        rw [← hn]
        exact hmem'
      have hteq : nt.2 = t := keys_nodup_eq hnd hmem'' hmem
      rw [hteq, hempty] at hemp
      exact hemp rfl

/-- Witness for C10 on a concrete batch: the 2×2 template's entry is
non-empty, and the oversized 20×20 template contributes no key. -/
theorem multi_match_only_nonempty_witness :
    (([(("big" : String), demoBig), ("ok", demoSmall)].map Prod.fst).Nodup) ∧
    (("ok", matchTemplateFn demoCorr 1 demoSmall demoScreen) ∈
      multiTemplateMatch demoCorr 1
        [(("big" : String), demoBig), ("ok", demoSmall)] demoScreen) ∧
    (matchTemplateFn demoCorr 1 demoSmall demoScreen ≠ []) ∧
    (("big", ([] : List (ℕ × ℕ × ℕ × ℕ))) ∉
      multiTemplateMatch demoCorr 1
        [(("big" : String), demoBig), ("ok", demoSmall)] demoScreen) := by
  have hnd : (([(("big" : String), demoBig), ("ok", demoSmall)].map Prod.fst).Nodup) := by
    simp
  have H := multi_match_only_nonempty demoCorr 1
    [(("big" : String), demoBig), ("ok", demoSmall)] demoScreen hnd
  have hin : (("ok", matchTemplateFn demoCorr 1 demoSmall demoScreen) ∈
      multiTemplateMatch demoCorr 1
        [(("big" : String), demoBig), ("ok", demoSmall)] demoScreen) := by
    decide
  refine ⟨hnd, hin, ?_, ?_⟩
  · exact (H.1 _ hin).1
  · exact H.2 ("big") demoBig (List.mem_cons_self _ _) (by decide) []

/-- C7 counterexample: the Windows loop (`RotMGbot.run`) is still running
after 10 — and even 100 — consecutive capture failures: its capture-failure
path sleeps and retries but keeps no counter and never stops, contradicting
the claimed exit at the 10-failure bound. -/
theorem capture_failure_counterexample :
    botPyCaptureRun (List.replicate 10 false) = false ∧
    botPyCaptureRun (List.replicate 100 false) = false := by
  decide

/-- C7 amended: in the Linux loop a successful capture resets the failure
counter, a failure below the bound sleeps briefly and retries, 10
consecutive failures stop the loop while fewer do not; the Windows loop
sleeps and retries on every failure but never exits from capture failures,
however many occur. -/
theorem capture_failure_amended :
    (∀ f : ℕ, linuxCaptureHandle 10 f true = (0, CapStep.proceed)) ∧
    (∀ f : ℕ, f + 1 < 10 →
       linuxCaptureHandle 10 f false = (f + 1, CapStep.sleepRetry)) ∧
    linuxCaptureRun 10 0 (List.replicate 10 false) = true ∧
    (∀ n : ℕ, n < 10 → linuxCaptureRun 10 0 (List.replicate n false) = false) ∧
    (∀ n : ℕ, botPyCaptureRun (List.replicate n false) = false) := by
  refine ⟨?_, ?_, ?_, ?_, ?_⟩
  · intro f
    simp [linuxCaptureHandle]
  · intro f hf
    have hnot : ¬ f + 1 ≥ 10 := by omega
    simp [linuxCaptureHandle, hnot]
  · decide
  · intro n hn
    interval_cases n <;> decide
  · intro n
    induction n with
    | zero => rfl
    | succ k ih =>
        rw [List.replicate_succ]
        simpa [botPyCaptureRun, botPyCaptureHandle] using ih

/-- Witness for the amended C7 at concrete counter values and failure runs. -/
theorem capture_failure_amended_witness :
    linuxCaptureHandle 10 3 true = (0, CapStep.proceed) ∧
    3 + 1 < 10 ∧
    linuxCaptureHandle 10 3 false = (4, CapStep.sleepRetry) ∧
    linuxCaptureRun 10 0 (List.replicate 10 false) = true ∧
    5 < 10 ∧
    linuxCaptureRun 10 0 (List.replicate 5 false) = false ∧
    botPyCaptureRun (List.replicate 7 false) = false := by
  have H := capture_failure_amended
  exact ⟨H.1 3, by norm_num, H.2.1 3 (by norm_num), H.2.2.1, by norm_num,
    H.2.2.2.1 5 (by norm_num), H.2.2.2.2 7⟩

/-- C8: evaluation at the failing input.  With no key bindings configured,
the default-key expression of `RotMGbot.stop_movement`,
`'wasd'[key.index('move_')]`, evaluates to `w` for all four movement actions
(`key.index('move_')` is always 0), so starting from a state with `w`, `a`,
`s`, `d` all held, `stop_movement` releases only `w` and leaves `a`, `s`,
`d` pressed; `release_movement_keys` with no `move_` bindings releases
nothing at all.  The claim that all four directional keys are released
unconditionally for every key-binding map fails. -/
theorem stop_movement_default_bug :
    wasdDefault ("move_up") = "w" ∧
    wasdDefault ("move_down") = "w" ∧
    wasdDefault ("move_left") = "w" ∧
    wasdDefault ("move_right") = "w" ∧
    stopMovementBot []
      (fun k => k == "w" || k == "a" || k == "s" || k == "d") ("a") = true ∧
    stopMovementBot []
      (fun k => k == "w" || k == "a" || k == "s" || k == "d") ("s") = true ∧
    stopMovementBot []
      (fun k => k == "w" || k == "a" || k == "s" || k == "d") ("d") = true ∧
    stopMovementBot []
      (fun k => k == "w" || k == "a" || k == "s" || k == "d") ("w") = false ∧
    releaseMovementKeys [] (fun k => k == "a") ("a") = true := by
  decide

theorem clampCoord_eq_of_neg {v₁ v₂ : ℤ} (dim : ℕ) (h : max v₁ v₂ < 0) :
    clampCoord v₁ dim = clampCoord v₂ dim := by
  unfold clampCoord
  omega

theorem clampCoord_eq_of_ge {v₁ v₂ : ℤ} (dim : ℕ)
    (h : (dim : ℤ) ≤ min v₁ v₂) :
    clampCoord v₁ dim = clampCoord v₂ dim := by
  unfold clampCoord
  omega

theorem detRegion_rw_zero {c : HpBarCalib} {f : Frame}
    (hx : clampCoord c.x1 f.w = clampCoord c.x2 f.w) :
    (detClampedRegion c f).2.2.2 = 0 := by
  simp only [detClampedRegion, hx]
  split_ifs <;> simp

theorem detRegion_rh_zero {c : HpBarCalib} {f : Frame}
    (hy : clampCoord c.y1 f.h = clampCoord c.y2 f.h) :
    (detClampedRegion c f).2.2.1 = 0 := by
  simp only [detClampedRegion, hy]
  split_ifs <;> simp

/-- C9: a calibrated health region lying fully outside the frame clamps to a
degenerate slice and the estimator returns the unknown sentinel `none`, not
a number; more generally any zero-area clamped region yields `none`. -/
theorem hp_region_outside_unknown (c : HpBarCalib) (f : Frame)
    (hout : regionFullyOutside c f) :
    detGetHpPercent c f = none ∧
    ∀ (c' : HpBarCalib) (f' : Frame),
      (detClampedRegion c' f').2.2.1 * (detClampedRegion c' f').2.2.2 = 0 →
      detGetHpPercent c' f' = none := by
  have harea : ∀ (c' : HpBarCalib) (f' : Frame),
      (detClampedRegion c' f').2.2.1 * (detClampedRegion c' f').2.2.2 = 0 →
      detGetHpPercent c' f' = none := by
    intro c' f' h0
    simp only [detGetHpPercent]
    rw [if_pos]
    rw [h0]
  refine ⟨?_, harea⟩
  apply harea
  rcases hout with hx | hy
  · have h : clampCoord c.x1 f.w = clampCoord c.x2 f.w := by
      rcases hx with h | h
      · exact clampCoord_eq_of_neg f.w h
      · exact clampCoord_eq_of_ge f.w h
    rw [detRegion_rw_zero h]
    exact Nat.mul_zero _
  · have h : clampCoord c.y1 f.h = clampCoord c.y2 f.h := by
      rcases hy with h | h
      · exact clampCoord_eq_of_neg f.h h
      · exact clampCoord_eq_of_ge f.h h
    rw [detRegion_rh_zero h]
    exact Nat.zero_mul _

/-- Witness for C9: a region at x ∈ [2000, 2200] on a 1920×1080 frame is
fully outside and reads unknown; a zero-width in-bounds region also reads
unknown. -/
theorem hp_region_outside_unknown_witness :
    regionFullyOutside ⟨2000, 900, 2200, 920, 150⟩
      ⟨1080, 1920, fun _ _ => ⟨0, 0, 0⟩⟩ ∧
    detGetHpPercent ⟨2000, 900, 2200, 920, 150⟩
      ⟨1080, 1920, fun _ _ => ⟨0, 0, 0⟩⟩ = none ∧
    (detClampedRegion ⟨50, 900, 50, 920, 150⟩
        ⟨1080, 1920, fun _ _ => ⟨0, 0, 0⟩⟩).2.2.1 *
      (detClampedRegion ⟨50, 900, 50, 920, 150⟩
        ⟨1080, 1920, fun _ _ => ⟨0, 0, 0⟩⟩).2.2.2 = 0 ∧
    detGetHpPercent ⟨50, 900, 50, 920, 150⟩
      ⟨1080, 1920, fun _ _ => ⟨0, 0, 0⟩⟩ = none := by
  have hout : regionFullyOutside ⟨2000, 900, 2200, 920, 150⟩
      ⟨1080, 1920, fun _ _ => ⟨0, 0, 0⟩⟩ := by
    left
    right
    decide
  have H := hp_region_outside_unknown _ _ hout
  have h0 : (detClampedRegion ⟨50, 900, 50, 920, 150⟩
        ⟨1080, 1920, fun _ _ => ⟨0, 0, 0⟩⟩).2.2.1 *
      (detClampedRegion ⟨50, 900, 50, 920, 150⟩
        ⟨1080, 1920, fun _ _ => ⟨0, 0, 0⟩⟩).2.2.2 = 0 := by
    decide
  exact ⟨hout, H.1, h0, H.2 _ _ h0⟩

end RotMG
